import Mathlib

set_option linter.unusedVariables false

/-!
Shallow embedding of the l2app provider backend (src/lib/server.ts,
src/lib/common.ts, and the listener/event-handler sources), together with
theorems settling the frozen claims about it.

Modelling conventions:
* BN.js arbitrary-precision chain quantities are embedded as `Int`
  (BN division truncates toward zero, embedded as `Int.tdiv`).
* Hex-literal quantities that the code treats as uint/bytes32 values
  (for example the `'0x0'` additionalHash sentinel and the 64-zero
  zero-hash string) are embedded by their numeric value, so both spell `0`.
* Remote contract state read over RPC (`channelMap`, `paymentNetworkMap`,
  `balanceProofMap`, `rebalanceProofMap`, `feeProofMap`, `feeRateMap`,
  `getChannelID`) is a snapshot record of total maps.
* `web3.utils.soliditySha3` and the typed-data hash of `signHash`
  (src/lib/sign is not under src/, modelled from the spec as the hash of
  the canonical payload {channelID, balance, nonce, additionalHash}) are
  embedded as free constructors of `MsgHash`, and `Common.SignatureToHex`
  (a deterministic ecsign under the fixed provider key) wraps the hash.
* A thrown JS `Error` is an `Except.error`; the list component of an
  operation's result records every chain call submitted before the
  operation returned or threw.
-/

namespace L2

/-- Channel status per the spec's state machine {Open, Closing, Closed, Settled}.
The numeric `CHANNEL_STATUS` constants live in src/conf/contract which is not
under src/; only the comparison against the Open constant matters here, so the
status is embedded as an enumeration (`opened` stands for CHANNEL_STATUS_OPEN). -/
inductive ChannelStatus
  | opened
  | closing
  | closed
  | settled
deriving DecidableEq, Repr

/-- Result of `appPN.methods.channelMap(channelID).call()`. -/
structure ChannelInfo where
  status : ChannelStatus
  token : String
deriving DecidableEq, Repr

/-- Result of `appPN.methods.paymentNetworkMap(token).call()` (server.ts:137,208,438). -/
structure PaymentNetworkEntry where
  userCount : Int
  userTotalDeposit : Int
  userTotalWithdraw : Int
  providerDeposit : Int
  providerWithdraw : Int
  providerBalance : Int
  providerOnchainBalance : Int
deriving DecidableEq, Repr

/-- Result of `appPN.methods.balanceProofMap(channelID, addr).call()`
(server.ts:294,342; cita events part line 84). -/
structure BalanceProofEntry where
  balance : Int
  nonce : Int
  additionalHash : Int
  partnerSignature : String
deriving DecidableEq, Repr

/-- Result of `appPN.methods.rebalanceProofMap(channelID).call()`. ProposeReBalance
destructures it as {amount, nonce} (server.ts:213) and CloseChannel as
{inAmount, inNonce, regulatorSignature, inProviderSignature} (server.ts:293);
both views are kept as fields of the one record the RPC returns. -/
structure RebalanceProofEntry where
  amount : Int
  nonce : Int
  inAmount : Int
  inNonce : Int
  regulatorSignature : String
  inProviderSignature : String
deriving DecidableEq, Repr

/-- Result of `appPN.methods.feeProofMap(token).call()` (cita events part lines 66-69). -/
structure FeeProofEntry where
  amount : Int
  nonce : Int
deriving DecidableEq, Repr

/-- Snapshot of the application-chain contract state the SDK reads over RPC. -/
structure AppChainState where
  channelMap : String → ChannelInfo
  paymentNetworkMap : String → PaymentNetworkEntry
  balanceProofMap : String → String → BalanceProofEntry
  rebalanceProofMap : String → RebalanceProofEntry
  feeProofMap : String → FeeProofEntry
  feeRateMap : String → Int

/-- Snapshot of the primary-chain (eth) payment-network contract:
its address (`ethPN.options.address`) and the `getChannelID(user, token)` view. -/
structure EthState where
  address : String
  getChannelID : String → String → String

/-- Typed value passed to `web3.utils.soliditySha3` (an ABI-encoded field). -/
inductive SolValue
  | address (a : String)
  | bytes32 (b : String)
  | uint256 (n : Int)
deriving DecidableEq, Repr

/-- Message hash signed by the provider: either a `soliditySha3` over an ordered
field list, or the typed-data hash of `signHash`. Modelled from the spec:
src/lib/sign is not under src/; per the spec the typed-data hash covers exactly
the canonical payload {channelID, cumulative balance, nonce, additionalHash}. -/
inductive MsgHash
  | solidity (fields : List SolValue)
  | typed (channelID : String) (balance : Int) (nonce : Int) (additionalHash : Int)
deriving DecidableEq, Repr

/-- Detached signature produced by the provider's fixed key; `ecsign` is
deterministic, so a signature is determined by the message hash it covers. -/
structure Signature where
  messageHash : MsgHash
deriving DecidableEq, Repr

namespace Common

/-- Embedding of `Common.SignatureToHex` (common.ts:94-105): the provider's
deterministic detached signature over `messageHash`. -/
def SignatureToHex (messageHash : MsgHash) : Signature :=
  ⟨messageHash⟩

end Common

/-- A mutating call submitted to the application-chain contract. -/
inductive AppChainCall
  | providerProposeWithdraw (token : String) (balance : Int) (lastCommitBlock : Int)
  | proposeRebalance (channelID : String) (amount : Int) (nonce : Int) (signature : Signature)
  | transfer (toAddr : String) (channelID : String) (balance : Int) (nonce : Int)
      (additionalHash : Int) (signature : Signature)
  | submitFee (channelID : String) (token : String) (amount : Int) (nonce : Int)
      (signature : Signature)
deriving DecidableEq, Repr

/-- Call data of a primary-chain transaction built by the SDK. -/
inductive EthCallData
  | providerDeposit (token : String) (amount : Int)
  | approve (spender : String) (amount : Int)
  | closeChannel (channelID : String) (balance : Int) (nonce : Int) (additionalHash : Int)
      (partnerSignature : String) (inAmount : Int) (inNonce : Int)
      (regulatorSignature : String) (inProviderSignature : String)
deriving DecidableEq, Repr

/-- A raw primary-chain transaction handed to `Common.SendEthTransaction`. -/
structure EthTx where
  toAddr : String
  value : Int
  data : EthCallData
deriving DecidableEq, Repr

/-- JS return value of the SDK operations: the literal `false`, or one of the
outcome strings. -/
inductive OpResult
  | retFalse
  | retStr (s : String)
deriving DecidableEq, Repr

/-- Environment outcome of one application-chain `.send(tx)`: `rs.hash`
(absent means submission failed) and, when a receipt is fetched,
`receipt.errorMessage`. -/
structure CitaSendOutcome where
  hash : Option String
  errorMessage : Option String
deriving DecidableEq, Repr

/-- Shared receipt interpretation of server.ts (lines 162-176, 249-265, 381-396):
no hash means `'send CITA tx fail'`, a hash with no receipt error means
`'confirm success'`, a hash with a receipt error means `'confirm fail'`. -/
def interpretReceipt (rs : CitaSendOutcome) : OpResult :=
  match rs.hash with
  | some _ =>
    match rs.errorMessage with
    | none => .retStr "confirm success"
    | some _ => .retStr "confirm fail"
  | none => .retStr "send CITA tx fail"

/-- Zero-sentinel token address (`ADDRESS_ZERO`), denoting the native asset. -/
def ADDRESS_ZERO : String := "0x0000000000000000000000000000000000000000"

namespace SDK

/-- Embedding of `SDK.ProposeWithdraw` (server.ts:134-179). `lastCommitBlock`
abstracts `Common.GetLastCommitBlock` (current eth head plus the configured
commit-block margin) and `rs` the application-chain submission outcome. -/
def ProposeWithdraw (st : AppChainState) (lastCommitBlock : Int) (rs : CitaSendOutcome)
    (amount : Int) (token : String) :
    Except String OpResult × List AppChainCall :=
  let pn := st.paymentNetworkMap token
  if amount > pn.providerOnchainBalance then
    (.ok .retFalse, [])
  else
    let balance := pn.providerOnchainBalance - amount
    if balance > pn.providerBalance then
      (.ok .retFalse, [])
    else
      (.ok (interpretReceipt rs), [.providerProposeWithdraw token balance lastCommitBlock])

/-- Embedding of `SDK.ProposeReBalance` (server.ts:192-268). -/
def ProposeReBalance (eth : EthState) (st : AppChainState) (rs : CitaSendOutcome)
    (userAddress : String) (amount : Int) (token : String) :
    Except String OpResult × List AppChainCall :=
  let channelID := eth.getChannelID userAddress token
  let channel := st.channelMap channelID
  if channel.status ≠ ChannelStatus.opened then
    (.error "channel status is not open", [])
  else
    let providerBalance := (st.paymentNetworkMap token).providerBalance
    let rp := st.rebalanceProofMap channelID
    if amount - rp.amount > providerBalance then
      (.ok .retFalse, [])
    else
      let reBalanceAmount := rp.amount + amount
      let nonce := rp.nonce + 1
      let messageHash := MsgHash.solidity
        [.address eth.address, .bytes32 channelID, .uint256 reBalanceAmount, .uint256 nonce]
      let signature := Common.SignatureToHex messageHash
      (.ok (interpretReceipt rs), [.proposeRebalance channelID reBalanceAmount nonce signature])

/-- Embedding of `SDK.SendAsset` (server.ts:322-399). The code sets
`additionalHash = '0x0'` (numeric value 0) and signs via `signHash` over the
canonical payload {channelID, newCumulative, newNonce, additionalHash}. -/
def SendAsset (eth : EthState) (st : AppChainState) (rs : CitaSendOutcome)
    (toAddr : String) (amount : Int) (token : String) :
    Except String OpResult × List AppChainCall :=
  let channelID := eth.getChannelID toAddr token
  let channel := st.channelMap channelID
  if channel.status ≠ ChannelStatus.opened then
    (.error "channel status is not open", [])
  else
    let bp := st.balanceProofMap channelID toAddr
    let assetAmount := amount + bp.balance
    let nonce := bp.nonce + 1
    let additionalHash : Int := 0
    let messageHash := MsgHash.typed channelID assetAmount nonce additionalHash
    let signature := Common.SignatureToHex messageHash
    (.ok (interpretReceipt rs), [.transfer toAddr channelID assetAmount nonce additionalHash signature])

/-- Embedding of `SDK.CloseChannel` (server.ts:277-309): after the Open guard it
bundles the stored balance proof and rebalance proof into one primary-chain
`closeChannel` transaction; it returns nothing and awaits no receipt. -/
def CloseChannel (eth : EthState) (st : AppChainState) (cpAddress : String)
    (userAddress : String) (token : String) :
    Except String Unit × List EthTx :=
  let channelID := eth.getChannelID userAddress token
  let channel := st.channelMap channelID
  if channel.status ≠ ChannelStatus.opened then
    (.error "channel status is not open", [])
  else
    let bp := st.balanceProofMap channelID cpAddress
    let rp := st.rebalanceProofMap channelID
    let data := EthCallData.closeChannel channelID bp.balance bp.nonce bp.additionalHash
      bp.partnerSignature rp.inAmount rp.inNonce rp.regulatorSignature rp.inProviderSignature
    (.ok (), [{ toAddr := eth.address, value := 0, data := data }])

/-- Embedding of `SDK.Deposit` (server.ts:99-122) over
`Common.SendEthTransaction` (common.ts:28-70). `SendEthTransaction` resolves
only on the `transactionHash` event; its `error` and catch branches are empty
(the `reject` calls are commented out), so a failed broadcast produces no value
at all — embedded as `Option String` where `none` means the promise never
settles. Both transactions are addressed to `ethPN.options.address` exactly as
in the source. The first result component is the value `Deposit` resolves with
(`none` when it never resolves); the second lists the broadcasts attempted. -/
def Deposit (ethAddress : String) (approveOutcome depositOutcome : Option String)
    (amount : Int) (token : String) : Option String × List EthTx :=
  let data := EthCallData.providerDeposit token amount
  if token ≠ ADDRESS_ZERO then
    let erc20Data := EthCallData.approve ethAddress amount
    let approveTx : EthTx := { toAddr := ethAddress, value := 0, data := erc20Data }
    match approveOutcome with
    | none => (none, [approveTx])
    | some _ =>
      let depositTx : EthTx := { toAddr := ethAddress, value := 0, data := data }
      (depositOutcome, [approveTx, depositTx])
  else
    let depositTx : EthTx := { toAddr := ethAddress, value := amount, data := data }
    (depositOutcome, [depositTx])

end SDK

/-- Inbound application-chain Transfer event, as destructured by the handler
(cita events part lines 15-26). The source field names `from`/`to` are Lean
keywords and are embedded as `fromAddr`/`toAddr`; `balance` is the event's
cumulative transferred balance, `additionalHash` its numeric bytes32 value. -/
structure TransferEvent where
  fromAddr : String
  toAddr : String
  channelID : String
  balance : Int
  transferAmount : Int
  additionalHash : Int
deriving DecidableEq, Repr

/-- Normalized asset event handed to a registered `Transfer` callback
(`TRANSFER_EVENT` in src/conf/contract; fields per cita events part lines 46-53). -/
structure TRANSFER_EVENT where
  fromAddr : String
  toAddr : String
  token : String
  amount : Int
  additionalHash : Int
  totalTransferredAmount : Int
deriving DecidableEq, Repr

/-- Embedding of the `CITA_EVENTS.Transfer` handler (cita events part lines
13-138). `hasTransferCallback` models `callbacks.get("Transfer")` being set;
the first result component is the callback payload delivered (the handler
delivers it only when `additionalHash` is the zero-hash sentinel), the second
the application-chain calls submitted. With a zero fee rate the handler
returns before claiming any fee; otherwise it submits `submitFee` with
`feeAmount = priorFee + (feeRate * (eventBalance - trackedBalance)) / 10000`
(BN truncated division) and `feeNonce = priorNonce + 1`, signed over
soliditySha3(contract address, token, feeAmount, feeNonce). -/
def transferHandler (eth : EthState) (st : AppChainState) (cpAddress : String)
    (hasTransferCallback : Bool) (ev : TransferEvent) :
    Option TRANSFER_EVENT × List AppChainCall :=
  let channel := st.channelMap ev.channelID
  let token := channel.token
  let assetEvent : TRANSFER_EVENT :=
    { fromAddr := ev.fromAddr, toAddr := ev.toAddr, token := token,
      amount := ev.transferAmount, additionalHash := ev.additionalHash,
      totalTransferredAmount := ev.balance }
  let cb := if hasTransferCallback ∧ ev.additionalHash = 0 then some assetEvent else none
  let fee := st.feeProofMap token
  let feeRate := st.feeRateMap token
  if feeRate = 0 then
    (cb, [])
  else
    let amount := (st.balanceProofMap ev.channelID cpAddress).balance
    let feeAmount := fee.amount + Int.tdiv (feeRate * (ev.balance - amount)) 10000
    let feeNonce := fee.nonce + 1
    let messageHash := MsgHash.solidity
      [.address eth.address, .address token, .uint256 feeAmount, .uint256 feeNonce]
    let signature := Common.SignatureToHex messageHash
    (cb, [.submitFee ev.channelID token feeAmount feeNonce signature])

/-- An event as returned by `getPastEvents("allEvents", ...)`: its name and its
string-valued return-value fields (listener part lines 573-574). -/
structure GenEvent where
  event : String
  returnValues : List (String × String)
deriving DecidableEq, Repr

/-- Lookup of `returnValues[k]`. -/
def lookupField (rv : List (String × String)) (k : String) : Option String :=
  (rv.find? (fun p => p.1 = k)).map (·.2)

/-- Filter predicate of `HttpWatcher.processAllEvent` (listener part lines
577-587): every filter key must be present in the event's return values with a
truthy value (a missing or empty string is JS-falsy) equal case-insensitively
to the filter value. -/
def filterMatch (filter : List (String × String)) (rv : List (String × String)) : Bool :=
  filter.all (fun kv =>
    match lookupField rv kv.1 with
    | none => false
    | some v => v != "" && v.toLower == kv.2.toLower)

/-- Embedding of `HttpWatcher.processAllEvent` (listener part lines 562-594) on
an already-fetched batch. A watch item's listener table maps an event name to
its (filter, handler) entry; a handler either returns or throws
(`Except.error`). The source awaits each matched handler with no try/catch, so
a throwing handler ends the scan of the batch and the error escapes. The first
result component lists the names of the events whose handler was invoked, in
order; the second is the error that escaped the batch, if any. -/
def processAllEvent
    (listenerTable : String → Option (List (String × String) × (GenEvent → Except String Unit))) :
    List GenEvent → List String × Option String
  | [] => ([], none)
  | e :: rest =>
    match listenerTable e.event with
    | none => processAllEvent listenerTable rest
    | some fh =>
      if filterMatch fh.1 e.returnValues then
        match fh.2 e with
        | .error err => ([e.event], some err)
        | .ok _ =>
          let r := processAllEvent listenerTable rest
          (e.event :: r.1, r.2)
      else processAllEvent listenerTable rest

/-- Embedding of the unused `HttpWatcher.processEvent` path (listener part
lines 527-553): each handler call sits in a try/catch whose catch body is
empty (the `logger.error` line is commented out), so every event of the batch
is processed and no error escapes; result is the names of handled events. -/
def processEvent (events : List GenEvent) : List String :=
  events.map (·.event)

/-- State of an `HttpWatcher` instance (listener part lines 503-525): the
fields its constructor stores. It has no catch-up-margin field. -/
structure HttpWatcher where
  provider : String
  blockInterval : Int
  enabled : Bool
deriving DecidableEq, Repr

/-- Starting checkpoint computed by `HttpWatcher.start` (listener part line
598): `lastBlockNumber = lastBlockNumber || currentBlockNumber - 10`, with
`lastBlockNumber` defaulting to 0 (JS-falsy) when no explicit fromBlock is
given. The margin is the literal 10; no field of the watcher enters it. -/
def HttpWatcher.startCheckpoint (_w : HttpWatcher)
    (lastBlockNumber currentBlockNumber : Int) : Int :=
  if lastBlockNumber = 0 then currentBlockNumber - 10 else lastBlockNumber

/-- Control point of one in-flight `SendAsset` invocation, split at its await
points: before the `balanceProofMap` read (server.ts:341), after the read with
the fetched proof captured in locals, and after the `transfer` submission
(server.ts:380). The source takes no lock between the two points. -/
inductive SendAssetPhase
  | beforeRead
  | afterRead (balance : Int) (nonce : Int)
  | finished
deriving DecidableEq, Repr

/-- Shared state of two concurrent `SendAsset` invocations on the same
channel: the contract-side stored balance proof, each invocation's control
point, and the signed balance proofs (cumulative balance, nonce) produced so
far, in production order. -/
structure RaceState where
  stored : BalanceProofEntry
  phase1 : SendAssetPhase
  phase2 : SendAssetPhase
  produced : List (Int × Int)
deriving DecidableEq, Repr

/-- One step of a `SendAsset` invocation transferring `amount`: the read step
captures the stored proof; the submit step signs and submits the proof with
the captured nonce plus 1 (server.ts:348-349,380), which the contract then
stores. Returns the new control point, the new stored proof, and the proofs
produced by the step. -/
def sendAssetStep (amount : Int) (stored : BalanceProofEntry) :
    SendAssetPhase → SendAssetPhase × BalanceProofEntry × List (Int × Int)
  | .beforeRead => (.afterRead stored.balance stored.nonce, stored, [])
  | .afterRead b n =>
    let newBalance := amount + b
    let newNonce := n + 1
    (.finished, { stored with balance := newBalance, nonce := newNonce },
      [(newBalance, newNonce)])
  | .finished => (.finished, stored, [])

/-- Interleaving step: `first` selects which of the two invocations runs its
next step. The source has no mutual-exclusion construct, so every interleaving
of the awaits is a possible schedule. -/
def raceStep (amount : Int) (s : RaceState) (first : Bool) : RaceState :=
  if first then
    let r := sendAssetStep amount s.stored s.phase1
    { s with phase1 := r.1, stored := r.2.1, produced := s.produced ++ r.2.2 }
  else
    let r := sendAssetStep amount s.stored s.phase2
    { s with phase2 := r.1, stored := r.2.1, produced := s.produced ++ r.2.2 }

/-- Run a schedule of interleaved steps of the two invocations. -/
def raceRun (amount : Int) (s : RaceState) : List Bool → RaceState
  | [] => s
  | b :: rest => raceRun amount (raceStep amount s b) rest

/-- Decoded `returnValues` of a past `Transfer` event, as destructured by
`getTX` (server.ts:479): `{channelID, balance, ...rest}` with `nonce` among
the rest. -/
structure TransferReturnValues where
  channelID : String
  nonce : Int
  balance : Int
deriving DecidableEq, Repr

/-- A past `Transfer` event consumed by `SDK.GetAllTXs` (server.ts:466-495),
shaped like the EventLog objects `getPastEvents` returns: the top-level
fields the code reads (`transactionHash`) and the decoded fields nested under
`returnValues`. The EventLog has no top-level `nonce` or `balance` field —
those exist only inside `returnValues`. -/
structure PastTransferEvent where
  transactionHash : String
  returnValues : TransferReturnValues
deriving DecidableEq, Repr

/-- Transaction record built by `getTX` (server.ts:478-489): id, the amount
derived from the running balance, and the rest of the return values. -/
structure TXRecord where
  id : String
  amount : Int
  nonce : Int
deriving DecidableEq, Repr

/-- A JS arithmetic result: a number, or NaN. -/
inductive JsNumber
  | num (n : Int)
  | nan
deriving DecidableEq, Repr

/-- Embedding of the comparator `cmpNonce('nonce')` (server.ts:473-475),
`(a, b) => a['nonce'] - b['nonce']`: it indexes the TOP LEVEL of the raw
EventLog objects, where no `nonce` field exists (the decoded nonce sits at
`a.returnValues.nonce`, which the comparator never touches), so both operands
are `undefined` and the subtraction evaluates to NaN for every pair. -/
def cmpNonce (a b : PastTransferEvent) : JsNumber :=
  JsNumber.nan

/-- Keep-order relation of JS `Array.sort(cmp)` between an earlier element
`a` and a later element `b`: `a` stays before `b` unless the comparator
orders `b` strictly first; a NaN comparator result is treated as 0, i.e. the
elements compare equal and the stable sort keeps their fetched order. -/
def jsKeep (a b : PastTransferEvent) : Bool :=
  match cmpNonce a b with
  | .num n => decide (n ≤ 0)
  | .nan => true

/-- Propositional form of `jsKeep`, the relation the stable sort inserts by. -/
abbrev jsSortLE (a b : PastTransferEvent) : Prop := jsKeep a b = true

/-- Embedding of `inTXs.sort(cmpNonce('nonce'))` (server.ts:491-492): a
stable comparator sort, embedded as stable insertion sort over `jsSortLE`.
Because `cmpNonce` is NaN on every pair, every comparison reads as equal and
the sort leaves the list in fetched order (`sortByNonce_eq_self`). -/
def sortByNonce (l : List PastTransferEvent) : List PastTransferEvent :=
  List.insertionSort jsSortLE l

/-- Embedding of the `getTX` closure mapped over a sorted event list
(server.ts:477-489): `lastBalance` is the mutable accumulator; each record's
amount is its cumulative balance minus the accumulator, which is then set to
that cumulative balance. Returns the records and the final accumulator. -/
def getTXs (lastBalance : Int) : List PastTransferEvent → List TXRecord × Int
  | [] => ([], lastBalance)
  | tx :: rest =>
    let r := getTXs tx.returnValues.balance rest
    ({ id := tx.transactionHash, amount := tx.returnValues.balance - lastBalance,
       nonce := tx.returnValues.nonce } :: r.1, r.2)

/-- Embedding of `SDK.GetAllTXs` (server.ts:466-495): the one `lastBalance`
accumulator, initialized to `new BN(0)`, is threaded through the incoming list
first and then through the outgoing list. -/
def GetAllTXs (inTXs outTXs : List PastTransferEvent) : List TXRecord × List TXRecord :=
  let a := getTXs 0 (sortByNonce inTXs)
  let b := getTXs a.2 (sortByNonce outTXs)
  (a.1, b.1)

/-- Amounts as the claim describes them: each transaction's amount is its
cumulative balance minus the cumulative balance of the previously processed
transaction, starting from the accumulator value `lastBalance`. -/
def claimedAmounts (lastBalance : Int) : List Int → List Int
  | [] => []
  | b :: rest => (b - lastBalance) :: claimedAmounts b rest

/-! Concrete fixtures used by witnesses and counterexamples. -/

/-- Primary-chain snapshot: every (user, token) pair resolves to channel `chan-1`. -/
def ethW : EthState := ⟨"0xPNaddr", fun _ _ => "chan-1"⟩

/-- Submission outcome with a transaction hash and a clean receipt. -/
def outcomeOk : CitaSendOutcome := ⟨some "0xh", none⟩

/-- Payment-network entry with all balances zero. -/
def pnDefault : PaymentNetworkEntry := ⟨0, 0, 0, 0, 0, 0, 0⟩

/-- Empty rebalance proof. -/
def rpDefault : RebalanceProofEntry := ⟨0, 0, 0, 0, "", ""⟩

/-- Application-chain snapshot whose only channel is in status Closing. -/
def stClosing : AppChainState :=
  { channelMap := fun _ => ⟨.closing, "tok"⟩
    paymentNetworkMap := fun _ => pnDefault
    balanceProofMap := fun _ _ => ⟨0, 0, 0, ""⟩
    rebalanceProofMap := fun _ => rpDefault
    feeProofMap := fun _ => ⟨0, 0⟩
    feeRateMap := fun _ => 0 }

/-- Application-chain snapshot with an Open channel, on-chain total 40, tracked
provider balance 100, a stored balance proof (7, nonce 3) and a stored
rebalance proof (10, nonce 2). -/
def stOpen : AppChainState :=
  { channelMap := fun _ => ⟨.opened, "tok"⟩
    paymentNetworkMap := fun _ =>
      { pnDefault with providerBalance := 100, providerOnchainBalance := 40 }
    balanceProofMap := fun _ _ => ⟨7, 3, 0, ""⟩
    rebalanceProofMap := fun _ => { rpDefault with amount := 10, nonce := 2 }
    feeProofMap := fun _ => ⟨0, 0⟩
    feeRateMap := fun _ => 50 }

/-- Application-chain snapshot matching the spec's fee example: tracked balance
100, fee rate 50 bps, prior fee amount 0, prior fee nonce 0. -/
def stFee : AppChainState :=
  { channelMap := fun _ => ⟨.opened, "tok"⟩
    paymentNetworkMap := fun _ => pnDefault
    balanceProofMap := fun _ _ => ⟨100, 0, 0, ""⟩
    rebalanceProofMap := fun _ => rpDefault
    feeProofMap := fun _ => ⟨0, 0⟩
    feeRateMap := fun _ => 50 }

/-- Inbound transfer raising the cumulative balance from 100 to 1100 (delta 1000). -/
def ev1000 : TransferEvent := ⟨"0xU", "0xCP", "chan-1", 1100, 1000, 0⟩

/-- Inbound transfer raising the cumulative balance from 100 to 200 (delta 100). -/
def ev100 : TransferEvent := ⟨"0xU", "0xCP", "chan-1", 200, 100, 0⟩

/-- Handler that always throws. -/
def failingHandler : GenEvent → Except String Unit := fun _ => .error "handler failed"

/-- Handler that always returns. -/
def okHandler : GenEvent → Except String Unit := fun _ => .ok ()

/-- Listener table with a throwing handler for `EvFail` and a normal one for `EvOk`. -/
def demoTable : String → Option (List (String × String) × (GenEvent → Except String Unit)) :=
  fun name =>
    if name = "EvFail" then some ([], failingHandler)
    else if name = "EvOk" then some ([], okHandler)
    else none

/-- Event matched by the throwing handler. -/
def evFail : GenEvent := ⟨"EvFail", []⟩

/-- Event matched by the normal handler. -/
def evOk : GenEvent := ⟨"EvOk", []⟩

/-- Past transfer fetched first: nonce 5, cumulative balance 10. -/
def txN5 : PastTransferEvent := ⟨"0xt5", ⟨"chan-1", 5, 10⟩⟩

/-- Past transfer fetched second: nonce 1, cumulative balance 4. -/
def txN1 : PastTransferEvent := ⟨"0xt1", ⟨"chan-1", 1, 4⟩⟩

/-! Helper lemmas. -/

/-- Truncated and floor division agree on nonnegative operands (BN.js division
truncates toward zero; the spec's fee formula floors). -/
theorem tdiv_eq_fdiv_of_nonneg {a b : Int} (ha : 0 ≤ a) (hb : 0 ≤ b) :
    a.tdiv b = a.fdiv b := by
  rw [Int.tdiv_eq_ediv ha hb, Int.fdiv_eq_ediv a hb]

/-- Inserting under the keep-order relation never moves an element forward:
with the NaN comparator every comparison reads as equal, so `orderedInsert`
just prepends. -/
theorem orderedInsert_jsSortLE (a : PastTransferEvent) (l : List PastTransferEvent) :
    List.orderedInsert jsSortLE a l = a :: l := by
  cases l with
  | nil => rfl
  | cons b rest => simp [List.orderedInsert, jsSortLE, jsKeep, cmpNonce]

/-- The source's sort is a no-op: the comparator reads the nonexistent
top-level `nonce` field, yields NaN on every pair, and the stable sort keeps
the fetched order. -/
theorem sortByNonce_eq_self (l : List PastTransferEvent) : sortByNonce l = l := by
  induction l with
  | nil => rfl
  | cons tx rest ih =>
    simp only [sortByNonce, List.insertionSort] at ih ⊢
    rw [ih, orderedInsert_jsSortLE]

/-- Amounts produced by the running-balance fold are the successive
differences of the cumulative balances, starting from the accumulator. -/
theorem getTXs_amounts (last : Int) (l : List PastTransferEvent) :
    (getTXs last l).1.map (·.amount)
      = claimedAmounts last (l.map (·.returnValues.balance)) := by
  induction l generalizing last with
  | nil => rfl
  | cons tx rest ih => simp [getTXs, claimedAmounts, ih]

/-- Final value of the running accumulator over a list of cumulative balances. -/
def lastBalanceOf (lastBalance : Int) : List Int → Int
  | [] => lastBalance
  | b :: rest => lastBalanceOf b rest

/-- The running accumulator ends at the last cumulative balance processed
(or the initial value on an empty list). -/
theorem lastBalanceOf_eq_getLastD (last : Int) (l : List Int) :
    lastBalanceOf last l = l.getLastD last := by
  induction l generalizing last with
  | nil => rfl
  | cons b rest ih =>
    rw [List.getLastD_cons]
    simpa only [lastBalanceOf] using ih b

/-- The accumulator left by the fold is the last cumulative balance processed
(or the initial value on an empty list). -/
theorem getTXs_final (last : Int) (l : List PastTransferEvent) :
    (getTXs last l).2 = (l.map (·.returnValues.balance)).getLastD last := by
  rw [← lastBalanceOf_eq_getLastD]
  induction l generalizing last with
  | nil => rfl
  | cons tx rest ih =>
    simpa only [getTXs, lastBalanceOf, List.map_cons] using ih tx.returnValues.balance

/-- The fold preserves the events' nonces in order. -/
theorem getTXs_nonces (last : Int) (l : List PastTransferEvent) :
    (getTXs last l).1.map (·.nonce) = l.map (·.returnValues.nonce) := by
  induction l generalizing last with
  | nil => rfl
  | cons tx rest ih => simp [getTXs, ih]

/-! Claim theorems. -/

/-- C2: for every state, amount and token, `ProposeWithdraw` returns `false`
and submits no transaction whenever the amount exceeds the on-chain total
provider balance, or whenever the on-chain total minus the amount exceeds the
currently tracked provider balance. -/
theorem proposeWithdraw_rejects_insufficient
    (st : AppChainState) (lastCommitBlock : Int) (rs : CitaSendOutcome)
    (amount : Int) (token : String)
    (h : amount > (st.paymentNetworkMap token).providerOnchainBalance ∨
         (st.paymentNetworkMap token).providerOnchainBalance - amount >
           (st.paymentNetworkMap token).providerBalance) :
    SDK.ProposeWithdraw st lastCommitBlock rs amount token = (.ok .retFalse, []) := by
  rcases h with h | h
  · simp [SDK.ProposeWithdraw, h]
  · by_cases h1 : amount > (st.paymentNetworkMap token).providerOnchainBalance
    · simp [SDK.ProposeWithdraw, h1]
    · simp [SDK.ProposeWithdraw, h1, h]

/-- Witness for C2 at the spec's example: ProposeWithdraw of 50 against an
on-chain total of 40 returns `false` with no transaction submitted. -/
theorem proposeWithdraw_rejects_insufficient_witness :
    SDK.ProposeWithdraw stOpen 123 outcomeOk 50 "tok" = (.ok .retFalse, []) :=
  proposeWithdraw_rejects_insufficient stOpen 123 outcomeOk 50 "tok" (Or.inl (by decide))

/-- C1 (amended): when the resolved channel's status is not Open, SendAsset,
ProposeReBalance and CloseChannel all throw an Error reading "channel status
is not open" — they do not return a policy-failure value — and issue no chain
call before throwing. -/
theorem channelNotOpen_throws
    (eth : EthState) (st : AppChainState) (rs : CitaSendOutcome) (cpAddress : String)
    (u : String) (amount : Int) (token : String)
    (h : (st.channelMap (eth.getChannelID u token)).status ≠ ChannelStatus.opened) :
    SDK.SendAsset eth st rs u amount token = (.error "channel status is not open", []) ∧
    SDK.ProposeReBalance eth st rs u amount token = (.error "channel status is not open", []) ∧
    SDK.CloseChannel eth st cpAddress u token = (.error "channel status is not open", []) := by
  refine ⟨?_, ?_, ?_⟩ <;>
    simp [SDK.SendAsset, SDK.ProposeReBalance, SDK.CloseChannel, h]

/-- Witness for C1 (amended) on a channel in status Closing. -/
theorem channelNotOpen_throws_witness :
    SDK.SendAsset ethW stClosing outcomeOk "user" 5 "tok"
        = (.error "channel status is not open", []) ∧
    SDK.ProposeReBalance ethW stClosing outcomeOk "user" 5 "tok"
        = (.error "channel status is not open", []) ∧
    SDK.CloseChannel ethW stClosing "0xCP" "user" "tok"
        = (.error "channel status is not open", []) :=
  channelNotOpen_throws ethW stClosing outcomeOk "0xCP" "user" 5 "tok" (by decide)

/-- C1 counterexample: SendAsset on a channel with status Closing throws
(`Except.error "channel status is not open"`) and never returns a
policy-failure value, contrary to the claim that the operation rejects by
returning rather than throwing; it does issue no chain call. -/
theorem channelNotOpen_returns_counterexample :
    (SDK.SendAsset ethW stClosing outcomeOk "user" 5 "tok").1
        = Except.error "channel status is not open" ∧
    (SDK.SendAsset ethW stClosing outcomeOk "user" 5 "tok").2 = [] ∧
    ¬ ∃ v, (SDK.SendAsset ethW stClosing outcomeOk "user" 5 "tok").1 = Except.ok v := by
  have h1 : (SDK.SendAsset ethW stClosing outcomeOk "user" 5 "tok").1
      = Except.error "channel status is not open" := rfl
  refine ⟨h1, rfl, ?_⟩
  rw [h1]
  rintro ⟨v, hv⟩
  simp at hv

/-- C3: on an Open channel, SendAsset submits a transfer whose cumulative
balance is the stored balance-proof balance plus the amount, whose nonce is
the stored nonce plus 1, whose additionalHash is the zero sentinel, and whose
signature covers the canonical payload {channelID, newCumulative, newNonce,
additionalHash}. -/
theorem sendAsset_signed_payload
    (eth : EthState) (st : AppChainState) (rs : CitaSendOutcome)
    (toAddr : String) (amount : Int) (token : String)
    (h : (st.channelMap (eth.getChannelID toAddr token)).status = ChannelStatus.opened) :
    SDK.SendAsset eth st rs toAddr amount token =
      (.ok (interpretReceipt rs),
       [AppChainCall.transfer toAddr (eth.getChannelID toAddr token)
          ((st.balanceProofMap (eth.getChannelID toAddr token) toAddr).balance + amount)
          ((st.balanceProofMap (eth.getChannelID toAddr token) toAddr).nonce + 1)
          0
          (Common.SignatureToHex (MsgHash.typed (eth.getChannelID toAddr token)
            ((st.balanceProofMap (eth.getChannelID toAddr token) toAddr).balance + amount)
            ((st.balanceProofMap (eth.getChannelID toAddr token) toAddr).nonce + 1) 0))]) := by
  simp [SDK.SendAsset, h, Int.add_comm]

/-- Witness for C3: stored proof (7, nonce 3), transfer of 5 yields cumulative
12, nonce 4, zero additionalHash, signed over that payload. -/
theorem sendAsset_signed_payload_witness :
    SDK.SendAsset ethW stOpen outcomeOk "user" 5 "tok" =
      (.ok (.retStr "confirm success"),
       [AppChainCall.transfer "user" "chan-1" 12 4 0
          (Common.SignatureToHex (MsgHash.typed "chan-1" 12 4 0))]) := by
  have h := sendAsset_signed_payload ethW stOpen outcomeOk "user" 5 "tok" rfl
  rw [h]
  rfl

/-- C4: on an Open channel, ProposeReBalance returns `false` without
submitting when the amount minus the stored rebalance amount exceeds the
available provider balance; otherwise it submits a rebalance carrying the
stored amount plus the amount and the stored nonce plus 1, signed over
soliditySha3(contract address, channelID, newAmount, newNonce). -/
theorem proposeReBalance_behavior
    (eth : EthState) (st : AppChainState) (rs : CitaSendOutcome)
    (u : String) (amount : Int) (token : String)
    (h : (st.channelMap (eth.getChannelID u token)).status = ChannelStatus.opened) :
    (amount - (st.rebalanceProofMap (eth.getChannelID u token)).amount >
        (st.paymentNetworkMap token).providerBalance →
      SDK.ProposeReBalance eth st rs u amount token = (.ok .retFalse, [])) ∧
    (amount - (st.rebalanceProofMap (eth.getChannelID u token)).amount ≤
        (st.paymentNetworkMap token).providerBalance →
      SDK.ProposeReBalance eth st rs u amount token =
        (.ok (interpretReceipt rs),
         [AppChainCall.proposeRebalance (eth.getChannelID u token)
            ((st.rebalanceProofMap (eth.getChannelID u token)).amount + amount)
            ((st.rebalanceProofMap (eth.getChannelID u token)).nonce + 1)
            (Common.SignatureToHex (MsgHash.solidity
              [.address eth.address, .bytes32 (eth.getChannelID u token),
               .uint256 ((st.rebalanceProofMap (eth.getChannelID u token)).amount + amount),
               .uint256 ((st.rebalanceProofMap (eth.getChannelID u token)).nonce + 1)]))])) := by
  constructor
  · intro hgt
    simp [SDK.ProposeReBalance, h, hgt]
  · intro hle
    simp [SDK.ProposeReBalance, h, not_lt.mpr hle]

/-- Witness for C4: stored rebalance (10, nonce 2), provider balance 100,
amount 5 passes the check and yields newAmount 15, newNonce 3. -/
theorem proposeReBalance_behavior_witness :
    SDK.ProposeReBalance ethW stOpen outcomeOk "user" 5 "tok" =
      (.ok (.retStr "confirm success"),
       [AppChainCall.proposeRebalance "chan-1" 15 3
          (Common.SignatureToHex (MsgHash.solidity
            [.address "0xPNaddr", .bytes32 "chan-1", .uint256 15, .uint256 3]))]) := by
  have h := (proposeReBalance_behavior ethW stOpen outcomeOk "user" 5 "tok" rfl).2 (by decide)
  rw [h]
  rfl

/-- C5: for an inbound Transfer event destined to the provider, no fee claim
is submitted when the token's fee rate is 0; otherwise the submitted fee claim
carries feeAmount = priorFee + floor(feeRate * (eventBalance - trackedBalance)
/ 10000) and feeNonce = priorNonce + 1, signed over soliditySha3(contract
address, token, feeAmount, feeNonce). -/
theorem transferFee_accrual
    (eth : EthState) (st : AppChainState) (cpAddress : String)
    (hasCb : Bool) (ev : TransferEvent)
    (hrate : 0 ≤ st.feeRateMap (st.channelMap ev.channelID).token)
    (hdelta : (st.balanceProofMap ev.channelID cpAddress).balance ≤ ev.balance) :
    (st.feeRateMap (st.channelMap ev.channelID).token = 0 →
      (transferHandler eth st cpAddress hasCb ev).2 = []) ∧
    (st.feeRateMap (st.channelMap ev.channelID).token ≠ 0 →
      (transferHandler eth st cpAddress hasCb ev).2 =
        [AppChainCall.submitFee ev.channelID (st.channelMap ev.channelID).token
          ((st.feeProofMap (st.channelMap ev.channelID).token).amount +
            Int.fdiv (st.feeRateMap (st.channelMap ev.channelID).token *
              (ev.balance - (st.balanceProofMap ev.channelID cpAddress).balance)) 10000)
          ((st.feeProofMap (st.channelMap ev.channelID).token).nonce + 1)
          (Common.SignatureToHex (MsgHash.solidity
            [.address eth.address, .address (st.channelMap ev.channelID).token,
             .uint256 ((st.feeProofMap (st.channelMap ev.channelID).token).amount +
               Int.fdiv (st.feeRateMap (st.channelMap ev.channelID).token *
                 (ev.balance - (st.balanceProofMap ev.channelID cpAddress).balance)) 10000),
             .uint256 ((st.feeProofMap (st.channelMap ev.channelID).token).nonce + 1)]))]) := by
  have hnum : 0 ≤ st.feeRateMap (st.channelMap ev.channelID).token *
      (ev.balance - (st.balanceProofMap ev.channelID cpAddress).balance) :=
    mul_nonneg hrate (by omega)
  have hdiv := tdiv_eq_fdiv_of_nonneg hnum (by norm_num : (0:Int) ≤ 10000)
  constructor
  · intro h0
    simp [transferHandler, h0]
  · intro hne
    simp [transferHandler, hne, hdiv]

/-- Witness for C5 at the spec's example numbers: with tracked balance 100,
rate 50 bps, prior fee 0 and prior nonce 0, a delta of 1000 yields fee amount
5 with fee nonce 1, and a delta of 100 yields fee amount 0 with fee nonce 1. -/
theorem transferFee_accrual_witness :
    (transferHandler ethW stFee "0xCP" true ev1000).2 =
      [AppChainCall.submitFee "chan-1" "tok" 5 1
        (Common.SignatureToHex (MsgHash.solidity
          [.address "0xPNaddr", .address "tok", .uint256 5, .uint256 1]))] ∧
    (transferHandler ethW stFee "0xCP" true ev100).2 =
      [AppChainCall.submitFee "chan-1" "tok" 0 1
        (Common.SignatureToHex (MsgHash.solidity
          [.address "0xPNaddr", .address "tok", .uint256 0, .uint256 1]))] := by
  constructor
  · have h := (transferFee_accrual ethW stFee "0xCP" true ev1000
      (by decide) (by decide)).2 (by decide)
    rw [h]; decide
  · have h := (transferFee_accrual ethW stFee "0xCP" true ev100
      (by decide) (by decide)).2 (by decide)
    rw [h]; decide

/-- C6 (amended): the source takes no lock between SendAsset's balance-proof
read and its transfer submission, so under the interleaving that runs both
reads before either submission, two concurrent SendAsset invocations on the
same channel both capture the stored nonce and both sign a proof carrying
that nonce plus 1 — the two produced proofs share a nonce. -/
theorem sendAsset_race_duplicate_nonce (bp : BalanceProofEntry) (amount : Int) :
    (raceRun amount ⟨bp, .beforeRead, .beforeRead, []⟩ [true, false, true, false]).produced
      = [(amount + bp.balance, bp.nonce + 1), (amount + bp.balance, bp.nonce + 1)] := by
  simp [raceRun, raceStep, sendAssetStep]

/-- C6 counterexample: from a stored proof (0, nonce 0), two concurrent
SendAsset invocations of 5 under the read-read-submit-submit interleaving
produce the proofs [(5, 1), (5, 1)] — two proofs of the same stream carrying
the same nonce, contradicting the claimed per-channel mutual exclusion and
duplicate-free, gap-free nonce streams. -/
theorem sendAsset_race_counterexample :
    (raceRun 5 ⟨⟨0, 0, 0, ""⟩, .beforeRead, .beforeRead, []⟩
        [true, false, true, false]).produced = [(5, 1), (5, 1)] ∧
    ¬ List.Pairwise (fun p q => p.2 ≠ q.2)
        (raceRun 5 ⟨⟨0, 0, 0, ""⟩, .beforeRead, .beforeRead, []⟩
          [true, false, true, false]).produced := by
  constructor
  · rfl
  · decide

/-- C7 (amended): in `processAllEvent` — the path the poller actually runs — a
matched handler that throws ends the scan of that watch item's batch: the
error escapes uncaught and unlogged, and no later event of the batch has its
handler invoked. -/
theorem processAllEvent_throw_aborts_batch
    (table : String → Option (List (String × String) × (GenEvent → Except String Unit)))
    (e : GenEvent) (rest : List GenEvent)
    (fl : List (String × String)) (hd : GenEvent → Except String Unit) (err : String)
    (htable : table e.event = some (fl, hd))
    (hmatch : filterMatch fl e.returnValues = true)
    (herr : hd e = Except.error err) :
    processAllEvent table (e :: rest) = ([e.event], some err) := by
  simp [processAllEvent, htable, hmatch, herr]

/-- Witness for C7 (amended): with the demo table, a batch headed by a
throwing handler stops after that event and surfaces the error. -/
theorem processAllEvent_throw_aborts_batch_witness :
    processAllEvent demoTable [evFail, evOk] = (["EvFail"], some "handler failed") :=
  processAllEvent_throw_aborts_batch demoTable evFail [evOk] [] failingHandler
    "handler failed" rfl rfl rfl

/-- C7 counterexample: in the batch [evFail, evOk], the throwing handler of
the first event aborts the scan — the second event's handler is never invoked
and the error escapes the batch — contradicting the claim that a throwing
handler is caught and logged per-event and that processing of the remaining
events continues; the same batch without the failing event processes fully. -/
theorem processAllEvent_isolation_counterexample :
    processAllEvent demoTable [evFail, evOk] = (["EvFail"], some "handler failed") ∧
    "EvOk" ∉ (processAllEvent demoTable [evFail, evOk]).1 ∧
    processAllEvent demoTable [evOk, evOk] = (["EvOk", "EvOk"], none) := by
  refine ⟨rfl, ?_, rfl⟩
  decide

/-- C8 (amended): started without an explicit fromBlock (JS default 0), the
poller's starting checkpoint is the current head minus 10, where 10 is a
hard-coded literal: the same for every watcher configuration, which carries no
margin parameter. -/
theorem startCheckpoint_margin_fixed (w : HttpWatcher) (currentBlockNumber : Int) :
    HttpWatcher.startCheckpoint w 0 currentBlockNumber = currentBlockNumber - 10 := by
  simp [HttpWatcher.startCheckpoint]

/-- C8 counterexample: two watchers with entirely different configurations
(provider, poll interval, enabled flag) both start at head - 10; no
configuration input changes the margin, contradicting the claim that the
catch-up margin is a configurable parameter rather than a fixed constant. -/
theorem startCheckpoint_configurable_counterexample :
    HttpWatcher.startCheckpoint ⟨"primary", 15000, true⟩ 0 100 = 90 ∧
    HttpWatcher.startCheckpoint ⟨"app", 3000, false⟩ 0 100 = 90 :=
  ⟨rfl, rfl⟩

/-- C9 (amended): Deposit on the zero-sentinel token submits the single
value-bearing deposit transaction; on any other token it submits the approval
first and then the zero-value deposit call (the approval's broadcast must
settle for the deposit to be sent at all). It resolves with the deposit
broadcast's transaction hash when one is produced; when a broadcast errors it
resolves with nothing — no submission-failure value is ever returned, because
`SendEthTransaction` swallows errors and leaves its promise pending. -/
theorem deposit_submission_behavior
    (ethAddress : String) (approveOutcome depositOutcome : Option String)
    (amount : Int) (token : String) :
    (token = ADDRESS_ZERO →
      SDK.Deposit ethAddress approveOutcome depositOutcome amount token =
        (depositOutcome,
         [{ toAddr := ethAddress, value := amount,
            data := EthCallData.providerDeposit token amount }])) ∧
    (token ≠ ADDRESS_ZERO → approveOutcome ≠ none →
      SDK.Deposit ethAddress approveOutcome depositOutcome amount token =
        (depositOutcome,
         [{ toAddr := ethAddress, value := 0,
            data := EthCallData.approve ethAddress amount },
          { toAddr := ethAddress, value := 0,
            data := EthCallData.providerDeposit token amount }])) ∧
    (token ≠ ADDRESS_ZERO → approveOutcome = none →
      SDK.Deposit ethAddress approveOutcome depositOutcome amount token =
        (none,
         [{ toAddr := ethAddress, value := 0,
            data := EthCallData.approve ethAddress amount }])) := by
  refine ⟨?_, ?_, ?_⟩
  · intro h
    simp [SDK.Deposit, h]
  · intro h h2
    cases approveOutcome with
    | none => exact absurd rfl h2
    | some a => simp [SDK.Deposit, h]
  · intro h h2
    subst h2
    simp [SDK.Deposit, h]

/-- Witness for C9 (amended): an ERC20 deposit submits the approval and then
the zero-value deposit call, and resolves with the deposit broadcast's hash. -/
theorem deposit_submission_behavior_witness :
    SDK.Deposit "0xPNaddr" (some "0xa") (some "0xd") 50 "0xTOK" =
      (some "0xd",
       [{ toAddr := "0xPNaddr", value := 0,
          data := EthCallData.approve "0xPNaddr" 50 },
        { toAddr := "0xPNaddr", value := 0,
          data := EthCallData.providerDeposit "0xTOK" 50 }]) :=
  (deposit_submission_behavior "0xPNaddr" (some "0xa") (some "0xd") 50 "0xTOK").2.1
    (by decide) (by decide)

/-- C9 counterexample: a zero-sentinel deposit of 50 whose broadcast errors —
the transaction is submitted, but Deposit resolves with no value at all
(`none`): neither the deposit transaction's hash nor any submission-failure
result reaches the caller, contradicting the claim that in both cases Deposit
returns the deposit hash or a submission failure. -/
theorem deposit_returns_counterexample :
    (SDK.Deposit "0xPNaddr" none none 50 ADDRESS_ZERO).1 = none ∧
    (SDK.Deposit "0xPNaddr" none none 50 ADDRESS_ZERO).2 =
      [{ toAddr := "0xPNaddr", value := 50,
         data := EthCallData.providerDeposit ADDRESS_ZERO 50 }] :=
  ⟨rfl, rfl⟩

/-- C10 (amended): `cmpNonce('nonce')` reads a top-level field the EventLog
objects do not have, so the sort it drives is a no-op and both lists keep
their fetched order (they are not sorted by nonce); each record's amount is
its cumulative balance minus the cumulative balance of the previously
processed event, through a single running-balance accumulator initialized to
0 and shared between the incoming list (processed first) and the outgoing
list — so the first outgoing amount is computed relative to the last incoming
cumulative balance (0 when there is none), in fetched order. -/
theorem getAllTXs_unsorted_shared_accumulator (ins outs : List PastTransferEvent) :
    sortByNonce ins = ins ∧
    sortByNonce outs = outs ∧
    (GetAllTXs ins outs).1.map (·.amount)
        = claimedAmounts 0 (ins.map (·.returnValues.balance)) ∧
    (GetAllTXs ins outs).2.map (·.amount)
        = claimedAmounts ((ins.map (·.returnValues.balance)).getLastD 0)
            (outs.map (·.returnValues.balance)) ∧
    (GetAllTXs ins outs).1.map (·.nonce) = ins.map (·.returnValues.nonce) ∧
    (GetAllTXs ins outs).2.map (·.nonce) = outs.map (·.returnValues.nonce) := by
  refine ⟨sortByNonce_eq_self ins, sortByNonce_eq_self outs, ?_, ?_, ?_, ?_⟩
  · simp [GetAllTXs, sortByNonce_eq_self, getTXs_amounts]
  · simp [GetAllTXs, sortByNonce_eq_self, getTXs_amounts, getTXs_final]
  · simp [GetAllTXs, sortByNonce_eq_self, getTXs_nonces]
  · simp [GetAllTXs, sortByNonce_eq_self, getTXs_nonces]

/-- C10 counterexample: with incoming events fetched out of nonce order
(nonce 5 with balance 10, then nonce 1 with balance 4), GetAllTXs leaves them
in fetched order — the comparator reads the nonexistent top-level `nonce`,
NaN compares as equal, the stable sort is a no-op — so the produced records
carry nonces [5, 1], which is not ascending, and amounts [10, -6] computed in
fetched order; this refutes the claim's assertion that the transaction lists
are sorted by ascending nonce. -/
theorem getAllTXs_sorted_counterexample :
    sortByNonce [txN5, txN1] = [txN5, txN1] ∧
    (GetAllTXs [txN5, txN1] []).1.map (·.nonce) = [5, 1] ∧
    (GetAllTXs [txN5, txN1] []).1.map (·.amount) = [10, -6] ∧
    ¬ List.Sorted (· ≤ ·) ((GetAllTXs [txN5, txN1] []).1.map (·.nonce)) := by
  refine ⟨rfl, rfl, rfl, ?_⟩
  decide

end L2
